import Mathlib

/-!
Verification of the autoregressive forecaster and the accuracy-assessment
engine of `src/application/use_cases/prediction_use_case.py`.

Modelling conventions:
* Python floats are modelled as real numbers (`ℝ`); the two quantities the
  source explicitly allows to be `float('inf')` (`normalized_rmse` and
  `mae_ratio`) are modelled in `EReal`, whose `⊤` plays the role of `+∞`
  (and `⊥` of `-∞`, which arises from `1 - (+∞)` in the scoring code).
* The forecaster itself never performs float arithmetic of its own (only the
  external model does), so it is embedded polymorphically over the sample
  type `α`; concrete checks instantiate `α := ℚ`.
* Every distinct Python `raise` site becomes a distinct `PredictionError`
  constructor; a raised exception aborts the call, hence `Except`.
* Python slicing `xs[i:j]` (with `0 ≤ i ≤ j`) is `(xs.take j).drop i`;
  the window slide `current_sequence[1:]` is `List.tail`.
-/

/-- The distinct `raise` sites of `prediction_use_case.py`.
`wrongInputLength n` is `ValueError("入力シーケンスの長さは{n}である必要があります")`
raised by `predict_single`; `wrongInitialLength n` is
`ValueError("初期シーケンスの長さは{n}である必要があります")` raised by
`predict_sequence`; `startIndexTooLarge` is
`ValueError("開始インデックスが大きすぎます")` raised by `predict_from_csv`. -/
inductive PredictionError where
  | wrongInputLength (expected : Nat)
  | wrongInitialLength (expected : Nat)
  | startIndexTooLarge
deriving DecidableEq

/-- `PredictionUseCase.predict_single`: checks that the window has length
`input_size` before handing it to the model, else raises. -/
def predictSingle {α : Type} (inputSize : Nat) (model : List α → α)
    (input_sequence : List α) : Except PredictionError α :=
  if input_sequence.length = inputSize then .ok (model input_sequence)
  else .error (.wrongInputLength inputSize)

/-- The `for _ in range(steps)` loop of `predict_sequence`: one-step predict,
append the prediction, then slide the window
(`current_sequence = current_sequence[1:] + [next_pred]`). -/
def predictLoop {α : Type} (inputSize : Nat) (model : List α → α)
    (cur : List α) : Nat → Except PredictionError (List α)
  | 0 => .ok []
  | n + 1 =>
    match predictSingle inputSize model cur with
    | .error e => .error e
    | .ok next =>
      match predictLoop inputSize model (cur.tail ++ [next]) n with
      | .error e => .error e
      | .ok rest => .ok (next :: rest)

/-- `PredictionUseCase.predict_sequence`: checks the initial window length,
then runs the autoregressive loop (on `initial_sequence.copy()`; the copying
and the frame property are modelled separately by `predictSequenceImp`). -/
def predictSequence {α : Type} (inputSize : Nat) (model : List α → α)
    (initial_sequence : List α) (steps : Nat) : Except PredictionError (List α) :=
  if initial_sequence.length = inputSize then
    predictLoop inputSize model initial_sequence steps
  else .error (.wrongInitialLength inputSize)

/-- The dictionary returned by `predict_from_csv`. -/
structure ForecastResult (α : Type) where
  initial_sequence : List α
  predictions : List α
  actual_values : List α
  start_index : Nat
  prediction_steps : Nat
  input_size : Nat
deriving DecidableEq

/-- `PredictionUseCase.predict_from_csv`, with the CSV already loaded into
`data` (file I/O is outside the modelled core; the claims all start from "a
loaded series"). -/
def predictFromCsv {α : Type} (inputSize : Nat) (model : List α → α)
    (data : List α) (startIndex : Nat) (predictionSteps : Nat) :
    Except PredictionError (ForecastResult α) :=
  if data.length ≤ startIndex + inputSize then .error .startIndexTooLarge
  else
    match predictSequence inputSize model
        ((data.take (startIndex + inputSize)).drop startIndex) predictionSteps with
    | .error e => .error e
    | .ok preds =>
      .ok { initial_sequence := (data.take (startIndex + inputSize)).drop startIndex
            predictions := preds
            actual_values :=
              (data.take (min (startIndex + inputSize + predictionSteps) data.length)).drop
                (startIndex + inputSize)
            start_index := startIndex
            prediction_steps := preds.length
            input_size := inputSize }

/-- The window the loop holds at the top of iteration `k`
(`current_sequence` when `predict_single` is called for the `k`-th time):
the initial window for `k = 0`, and for `k+1` the previous window with its
oldest element dropped and the model's output on it appended. -/
def windowAt {α : Type} (model : List α → α) (init : List α) : Nat → List α
  | 0 => init
  | k + 1 => (windowAt model init k).tail ++ [model (windowAt model init k)]

/-- The predictions the loop produces when no length check fails:
the model's outputs on the successive windows. -/
def genPreds {α : Type} (model : List α → α) (init : List α) : Nat → List α
  | 0 => []
  | n + 1 => model init :: genPreds model (init.tail ++ [model init]) n

/-- A concrete step predictor used for concrete runs: always forecasts `0`. -/
def zeroModel : List ℚ → ℚ := fun _ => 0

theorem windowAt_shift {α : Type} (model : List α → α) (init : List α) (k : Nat) :
    windowAt model (init.tail ++ [model init]) k = windowAt model init (k + 1) := by
  induction k with
  | zero => rfl
  | succ k ih => simp only [windowAt, ih]

theorem genPreds_length {α : Type} (model : List α → α) :
    ∀ (steps : Nat) (init : List α), (genPreds model init steps).length = steps := by
  intro steps
  induction steps with
  | zero => intro init; rfl
  | succ n ih => intro init; simp only [genPreds, List.length_cons, ih]

theorem genPreds_get {α : Type} (model : List α → α) :
    ∀ (steps : Nat) (init : List α) (k : Nat), k < steps →
      (genPreds model init steps).get? k = some (model (windowAt model init k)) := by
  intro steps
  induction steps with
  | zero => intro init k hk; cases hk
  | succ n ih =>
    intro init k hk
    cases k with
    | zero => rfl
    | succ k =>
      have := ih (init.tail ++ [model init]) k (Nat.lt_of_succ_lt_succ hk)
      simpa [genPreds, windowAt_shift] using this

/-- If every window the loop will visit has the required length, the loop
succeeds and produces exactly the model outputs on those windows. -/
theorem predictLoop_ok_of_windows {α : Type} (inputSize : Nat) (model : List α → α) :
    ∀ (n : Nat) (cur : List α),
      (∀ k, k < n → (windowAt model cur k).length = inputSize) →
      predictLoop inputSize model cur n = .ok (genPreds model cur n) := by
  intro n
  induction n with
  | zero => intro cur _; rfl
  | succ n ih =>
    intro cur hw
    have h0 : cur.length = inputSize := hw 0 (Nat.succ_pos n)
    have hrec :
        predictLoop inputSize model (cur.tail ++ [model cur]) n =
          .ok (genPreds model (cur.tail ++ [model cur]) n) := by
      refine ih (cur.tail ++ [model cur]) ?_
      intro k hk
      have := hw (k + 1) (Nat.succ_lt_succ hk)
      simpa [windowAt_shift] using this
    simp only [predictLoop, predictSingle, h0, if_true, eq_self_iff_true, hrec, genPreds]

/-- Conversely, a successful loop run forces every visited window to have the
required length, and the output is the model outputs on those windows. -/
theorem predictLoop_ok_elim {α : Type} (inputSize : Nat) (model : List α → α) :
    ∀ (n : Nat) (cur : List α) (ps : List α),
      predictLoop inputSize model cur n = .ok ps →
      ps = genPreds model cur n ∧
        ∀ k, k < n → (windowAt model cur k).length = inputSize := by
  intro n
  induction n with
  | zero =>
    intro cur ps h
    refine ⟨?_, by intro k hk; cases hk⟩
    simpa [predictLoop, genPreds] using (Except.ok.inj h).symm
  | succ n ih =>
    intro cur ps h
    by_cases h0 : cur.length = inputSize
    · simp only [predictLoop, predictSingle, h0, if_true, eq_self_iff_true] at h
      cases hrec : predictLoop inputSize model (cur.tail ++ [model cur]) n with
      | error e => rw [hrec] at h; cases h
      | ok rest =>
        rw [hrec] at h
        obtain ⟨hrest, hwin⟩ := ih (cur.tail ++ [model cur]) rest hrec
        refine ⟨?_, ?_⟩
        · have hps : ps = model cur :: rest := (Except.ok.inj h).symm
          rw [hps, hrest]
          rfl
        · intro k hk
          cases k with
          | zero => simpa [windowAt] using h0
          | succ k =>
            have := hwin k (Nat.lt_of_succ_lt_succ hk)
            simpa [windowAt_shift] using this
    · simp [predictLoop, predictSingle, h0] at h

theorem windowAt_length {α : Type} (inputSize : Nat) (model : List α → α)
    (init : List α) (h1 : 1 ≤ inputSize) (h0 : init.length = inputSize) :
    ∀ k, (windowAt model init k).length = inputSize := by
  intro k
  induction k with
  | zero => simpa [windowAt] using h0
  | succ k ih =>
    have hpos : 1 ≤ (windowAt model init k).length := by omega
    simp only [windowAt, List.length_append, List.length_tail, List.length_cons,
      List.length_nil]
    omega

/-- With a positive window size, the autoregressive run always succeeds. -/
theorem predictSequence_ok {α : Type} (inputSize : Nat) (model : List α → α)
    (init : List α) (steps : Nat) (h1 : 1 ≤ inputSize) (h0 : init.length = inputSize) :
    predictSequence inputSize model init steps = .ok (genPreds model init steps) := by
  unfold predictSequence
  rw [if_pos h0]
  exact predictLoop_ok_of_windows inputSize model steps init
    (fun k _ => windowAt_length inputSize model init h1 h0 k)

/-! ### Imperative model of `predict_sequence` (for the frame property)

Python lists are mutable heap objects. To state that `predict_sequence`
leaves the caller's `initial_sequence` object untouched, the function body is
re-played over an explicit heap: addresses are `Nat`, the heap maps addresses
to list values, and `fresh` is the lowest address not yet allocated (every
live object sits below `fresh`).  Heap writes happen exactly where the Python
code mutates or allocates: `predictions.append(...)` mutates the
`predictions` object in place, `initial_sequence.copy()` allocates, and
`current_sequence[1:] + [next_pred]` allocates a new list to which the local
name is rebound. -/

/-- Write one address of a heap. -/
def heapWrite (heap : Nat → List ℚ) (a : Nat) (v : List ℚ) : Nat → List ℚ :=
  fun b => if b = a then v else heap b

/-- The loop of `predict_sequence`, replayed on the heap.  `curAddr` is the
address the local name `current_sequence` is currently bound to, `predsAddr`
the address of the `predictions` list.  Each iteration appends the new
prediction to the `predictions` object in place and allocates a fresh list
for the new window.  The final heap is returned even on failure (a Python
`raise` does not undo prior writes). -/
def predictLoopImp (inputSize : Nat) (model : List ℚ → ℚ) (heap : Nat → List ℚ)
    (fresh curAddr predsAddr : Nat) :
    Nat → ((Nat → List ℚ) × Except PredictionError Unit)
  | 0 => (heap, .ok ())
  | n + 1 =>
    let cur := heap curAddr
    if cur.length = inputSize then
      let next := model cur
      let heap1 := heapWrite heap predsAddr (heap predsAddr ++ [next])
      let heap2 := heapWrite heap1 fresh (cur.tail ++ [next])
      predictLoopImp inputSize model heap2 (fresh + 1) fresh predsAddr n
    else (heap, .error (.wrongInputLength inputSize))

/-- `predict_sequence`, replayed on the heap: length check on the caller's
object, `predictions = []` (fresh allocation), `current_sequence =
initial_sequence.copy()` (fresh allocation), then the loop; on success the
value of the `predictions` object in the final heap is returned. -/
def predictSequenceImp (inputSize : Nat) (model : List ℚ → ℚ)
    (heap : Nat → List ℚ) (fresh initAddr : Nat) (steps : Nat) :
    ((Nat → List ℚ) × Except PredictionError (List ℚ)) :=
  if (heap initAddr).length = inputSize then
    let heap0 := heapWrite heap fresh []
    let heap1 := heapWrite heap0 (fresh + 1) (heap initAddr)
    let out := predictLoopImp inputSize model heap1 (fresh + 2) (fresh + 1) fresh steps
    (out.1, out.2.map (fun _ => out.1 fresh))
  else (heap, .error (.wrongInitialLength inputSize))

theorem heapWrite_same (heap : Nat → List ℚ) (a : Nat) (v : List ℚ) :
    heapWrite heap a v a = v := by
  simp [heapWrite]

theorem heapWrite_other (heap : Nat → List ℚ) (a b : Nat) (v : List ℚ)
    (h : b ≠ a) : heapWrite heap a v b = heap b := by
  simp [heapWrite, h]

/-- Loop correspondence: below-`fresh` addresses other than `predsAddr` are
never written, the `predictions` object accumulates exactly the pure loop's
output, and the status matches the pure loop. -/
theorem predictLoopImp_spec (inputSize : Nat) (model : List ℚ → ℚ) :
    ∀ (n : Nat) (heap : Nat → List ℚ) (fresh curAddr predsAddr : Nat),
      curAddr < fresh → predsAddr < fresh → curAddr ≠ predsAddr →
      (∀ a, a < fresh → a ≠ predsAddr →
        (predictLoopImp inputSize model heap fresh curAddr predsAddr n).1 a = heap a) ∧
      (match predictLoop inputSize model (heap curAddr) n with
        | .ok ps =>
            (predictLoopImp inputSize model heap fresh curAddr predsAddr n).2 = .ok () ∧
            (predictLoopImp inputSize model heap fresh curAddr predsAddr n).1 predsAddr =
              heap predsAddr ++ ps
        | .error e =>
            (predictLoopImp inputSize model heap fresh curAddr predsAddr n).2 = .error e) := by
  intro n
  induction n with
  | zero =>
    intro heap fresh curAddr predsAddr hc hp hcp
    exact ⟨fun a _ _ => rfl, ⟨rfl, by simp [predictLoopImp, predictLoop]⟩⟩
  | succ n ih =>
    intro heap fresh curAddr predsAddr hc hp hcp
    by_cases h0 : (heap curAddr).length = inputSize
    · have hstep :
          predictLoopImp inputSize model heap fresh curAddr predsAddr (n + 1) =
            predictLoopImp inputSize model
              (heapWrite (heapWrite heap predsAddr (heap predsAddr ++ [model (heap curAddr)]))
                fresh ((heap curAddr).tail ++ [model (heap curAddr)]))
              (fresh + 1) fresh predsAddr n := by
        simp only [predictLoopImp, h0, if_true, eq_self_iff_true]
      set next := model (heap curAddr) with hnext
      set heap2 :=
        heapWrite (heapWrite heap predsAddr (heap predsAddr ++ [next])) fresh
          ((heap curAddr).tail ++ [next]) with hheap2
      obtain ⟨ihframe, ihres⟩ :=
        ih heap2 (fresh + 1) fresh predsAddr (Nat.lt_succ_self fresh)
          (Nat.lt_succ_of_lt hp) (Nat.ne_of_gt hp)
      have hheap2cur : heap2 fresh = (heap curAddr).tail ++ [next] := by
        rw [hheap2, heapWrite_same]
      have hheap2preds : heap2 predsAddr = heap predsAddr ++ [next] := by
        rw [hheap2, heapWrite_other _ _ _ _ (Nat.ne_of_lt hp), heapWrite_same]
      constructor
      · intro a ha hap
        rw [hstep]
        have := ihframe a (Nat.lt_succ_of_lt ha) hap
        rw [this, hheap2, heapWrite_other _ _ _ _ (Nat.ne_of_lt ha),
          heapWrite_other _ _ _ _ hap]
      · rw [hheap2cur] at ihres
        cases hrec : predictLoop inputSize model ((heap curAddr).tail ++ [next]) n with
        | error e =>
          have hpure : predictLoop inputSize model (heap curAddr) (n + 1) = .error e := by
            simp only [predictLoop, predictSingle, h0, if_true, eq_self_iff_true,
              ← hnext, hrec]
          rw [hpure, hstep]
          rw [hrec] at ihres
          exact ihres
        | ok rest =>
          have hpure : predictLoop inputSize model (heap curAddr) (n + 1) =
              .ok (next :: rest) := by
            simp only [predictLoop, predictSingle, h0, if_true, eq_self_iff_true,
              ← hnext, hrec]
          rw [hpure, hstep]
          rw [hrec] at ihres
          refine ⟨ihres.1, ?_⟩
          rw [ihres.2, hheap2preds, List.append_assoc]
          rfl
    · constructor
      · intro a _ _
        simp only [predictLoopImp, h0, if_false]
      · have hpure : predictLoop inputSize model (heap curAddr) (n + 1) =
            .error (.wrongInputLength inputSize) := by
          simp only [predictLoop, predictSingle, h0, if_false]
        rw [hpure]
        simp only [predictLoopImp, h0, if_false]

/-- The heap replay agrees with the pure `predictSequence` and never touches
any previously allocated object except the fresh `predictions` list; in
particular the caller's `initial_sequence` is left unchanged. -/
theorem predictSequenceImp_spec (inputSize : Nat) (model : List ℚ → ℚ)
    (heap : Nat → List ℚ) (fresh initAddr : Nat) (steps : Nat)
    (hlive : initAddr < fresh) :
    (predictSequenceImp inputSize model heap fresh initAddr steps).1 initAddr =
        heap initAddr ∧
    (predictSequenceImp inputSize model heap fresh initAddr steps).2 =
        predictSequence inputSize model (heap initAddr) steps := by
  by_cases h0 : (heap initAddr).length = inputSize
  · have hne0 : initAddr ≠ fresh := Nat.ne_of_lt hlive
    have hne1 : initAddr ≠ fresh + 1 := by omega
    set heap1 := heapWrite (heapWrite heap fresh []) (fresh + 1) (heap initAddr) with hh1
    have hcur : heap1 (fresh + 1) = heap initAddr := by rw [hh1, heapWrite_same]
    have hpreds : heap1 fresh = [] := by
      rw [hh1, heapWrite_other _ _ _ _ (by omega), heapWrite_same]
    have hinit : heap1 initAddr = heap initAddr := by
      rw [hh1, heapWrite_other _ _ _ _ hne1, heapWrite_other _ _ _ _ hne0]
    obtain ⟨hframe, hres⟩ :=
      predictLoopImp_spec inputSize model steps heap1 (fresh + 2) (fresh + 1) fresh
        (by omega) (by omega) (by omega)
    have himp :
        predictSequenceImp inputSize model heap fresh initAddr steps =
          ((predictLoopImp inputSize model heap1 (fresh + 2) (fresh + 1) fresh steps).1,
            (predictLoopImp inputSize model heap1 (fresh + 2) (fresh + 1) fresh steps).2.map
              (fun _ =>
                (predictLoopImp inputSize model heap1 (fresh + 2) (fresh + 1) fresh
                  steps).1 fresh)) := by
      simp only [predictSequenceImp, h0, if_true, eq_self_iff_true, hh1]
    have hseq : predictSequence inputSize model (heap initAddr) steps =
        predictLoop inputSize model (heap initAddr) steps := by
      simp only [predictSequence, h0, if_true, eq_self_iff_true]
    rw [hcur] at hres
    constructor
    · rw [himp]
      have := hframe initAddr (by omega) hne0
      rw [this, hinit]
    · rw [himp, hseq]
      cases hrun : predictLoop inputSize model (heap initAddr) steps with
      | error e =>
        rw [hrun] at hres
        simp only [hres, Except.map]
      | ok ps =>
        rw [hrun] at hres
        obtain ⟨hstat, hval⟩ := hres
        rw [hpreds] at hval
        simp only [hstat, Except.map, hval, List.nil_append]
  · simp [predictSequenceImp, predictSequence, h0]

/-! ### Metrics calculator and accuracy assessor

`evaluate_predictions` / `_assess_accuracy` / `_get_metric_score`.  Floats
are reals; `normalized_rmse` and `mae_ratio`, which the source sets to
`float('inf')` on a zero data range, live in `EReal` (`⊤` = `+∞`). -/

/-- `np.mean`: sum divided by length. -/
noncomputable def pymean (xs : List ℝ) : ℝ := xs.sum / (xs.length : ℝ)

/-- `np.max` over a nonempty list (on an empty array numpy raises, which the
caller models as returning no record; the `0` default is never reached from
`evaluatePredictions`). -/
noncomputable def npMax : List ℝ → ℝ
  | [] => 0
  | x :: t => t.foldl max x

/-- `np.min`, same conventions as `npMax`. -/
noncomputable def npMin : List ℝ → ℝ
  | [] => 0
  | x :: t => t.foldl min x

/-- `np.var` with the default `ddof=0`: population variance. -/
noncomputable def npVar (xs : List ℝ) : ℝ :=
  pymean (xs.map (fun x => (x - pymean xs) ^ 2))

/-- `np.std` with the default `ddof=0`. -/
noncomputable def npStd (xs : List ℝ) : ℝ := Real.sqrt (npVar xs)

/-- `np.percentile` with the default linear interpolation between the two
nearest order statistics (`np.median q = 50`). -/
noncomputable def npPercentile (q : ℝ) (xs : List ℝ) : ℝ :=
  let s := List.insertionSort (fun a b => a ≤ b) xs
  let h : ℝ := q / 100 * ((s.length : ℝ) - 1)
  let i : Nat := (⌊h⌋).toNat
  s.getD i 0 + (h - (i : ℝ)) * (s.getD (i + 1) 0 - s.getD i 0)

/-- `np.corrcoef(pred, actual)[0, 1]`: the Pearson coefficient.  numpy
normalizes both covariances by `n - 1`; the normalization cancels in the
quotient, so the unnormalized centered sums define the same value.  The
`n ≤ 1` degenerate case is guarded at the call site; a constant input makes
the denominator zero (numpy: NaN), modelled by Lean's `x / 0 = 0`. -/
noncomputable def pearson (xs ys : List ℝ) : ℝ :=
  ((xs.zip ys).map (fun p => (p.1 - pymean xs) * (p.2 - pymean ys))).sum /
    Real.sqrt ((xs.map (fun x => (x - pymean xs) ^ 2)).sum *
      (ys.map (fun y => (y - pymean ys) ^ 2)).sum)

/-- The dictionary returned by `_assess_accuracy`.  The levels map to the
spec's names as 優秀 = Excellent, 良好 = Good, 許容可能 = Acceptable,
不十分 = Insufficient. -/
structure AccuracyAssessment where
  level : String
  acceptable : Bool
  overall_score : ℤ
  correlation_score : ℤ
  r_squared_score : ℤ
  normalized_rmse_score : ℤ
  mae_ratio_score : ℤ
  mae_ratio : EReal
  recommendation : String

/-- Projection helper for the `mae_ratio` field. -/
def maeRatioOf (a : AccuracyAssessment) : EReal :=
  AccuracyAssessment.mae_ratio a

/-- `PredictionUseCase._get_metric_score`: value-to-score conversion with
inclusive thresholds (3 = excellent, 2 = good, 1 = acceptable, 0 else). -/
noncomputable def getMetricScore (value excellent good acceptable : EReal) : ℤ :=
  if excellent ≤ value then 3
  else if good ≤ value then 2
  else if acceptable ≤ value then 1
  else 0

/-- `PredictionUseCase._assess_accuracy`. -/
noncomputable def assessAccuracy (correlation r_squared : ℝ)
    (normalized_rmse : EReal) (mae data_range : ℝ) : AccuracyAssessment :=
  let mae_ratio : EReal :=
    if data_range ≠ 0 then ((mae / data_range : ℝ) : EReal) else ⊤
  let correlation_score := getMetricScore ((|correlation| : ℝ) : EReal)
    ((0.95 : ℝ) : EReal) ((0.80 : ℝ) : EReal) ((0.60 : ℝ) : EReal)
  let r_squared_score := getMetricScore ((r_squared : ℝ) : EReal)
    ((0.90 : ℝ) : EReal) ((0.70 : ℝ) : EReal) ((0.50 : ℝ) : EReal)
  let normalized_rmse_score := getMetricScore (1 - normalized_rmse)
    (((1 - 0.05 : ℝ)) : EReal) (((1 - 0.10 : ℝ)) : EReal) (((1 - 0.20 : ℝ)) : EReal)
  let mae_ratio_score := getMetricScore (1 - mae_ratio)
    (((1 - 0.02 : ℝ)) : EReal) (((1 - 0.05 : ℝ)) : EReal) (((1 - 0.10 : ℝ)) : EReal)
  let overall_score :=
    min (min (min correlation_score r_squared_score) normalized_rmse_score) mae_ratio_score
  if 3 ≤ overall_score then
    { level := "優秀", acceptable := true, overall_score := overall_score,
      correlation_score := correlation_score, r_squared_score := r_squared_score,
      normalized_rmse_score := normalized_rmse_score, mae_ratio_score := mae_ratio_score,
      mae_ratio := mae_ratio,
      recommendation := "予測精度は非常に優秀です。実用レベルに達しています。" }
  else if 2 ≤ overall_score then
    { level := "良好", acceptable := true, overall_score := overall_score,
      correlation_score := correlation_score, r_squared_score := r_squared_score,
      normalized_rmse_score := normalized_rmse_score, mae_ratio_score := mae_ratio_score,
      mae_ratio := mae_ratio,
      recommendation := "予測精度は良好です。実用に適していますが、さらなる改善の余地があります。" }
  else if 1 ≤ overall_score then
    { level := "許容可能", acceptable := true, overall_score := overall_score,
      correlation_score := correlation_score, r_squared_score := r_squared_score,
      normalized_rmse_score := normalized_rmse_score, mae_ratio_score := mae_ratio_score,
      mae_ratio := mae_ratio,
      recommendation := "予測精度は最低限許容可能ですが、実用には注意が必要です。改善を推奨します。" }
  else
    { level := "不十分", acceptable := false, overall_score := overall_score,
      correlation_score := correlation_score, r_squared_score := r_squared_score,
      normalized_rmse_score := normalized_rmse_score, mae_ratio_score := mae_ratio_score,
      mae_ratio := mae_ratio,
      recommendation := "予測精度が不十分です。モデルの大幅な改善が必要です。" }

/-- The dictionary returned by `evaluate_predictions`. -/
structure Metrics where
  mse : ℝ
  mae : ℝ
  rmse : ℝ
  correlation : ℝ
  r_squared : ℝ
  error_std : ℝ
  error_var : ℝ
  max_error : ℝ
  min_error : ℝ
  error_95th_percentile : ℝ
  error_75th_percentile : ℝ
  error_median : ℝ
  normalized_rmse : EReal
  data_range : ℝ
  samples : Nat
  accuracy_assessment : AccuracyAssessment

/-- `PredictionUseCase.evaluate_predictions`: truncate both inputs to the
common length, compute the statistics, and delegate to `_assess_accuracy`.
On an empty truncated pair `np.max`/`np.min` raise `ValueError`
("zero-size array to reduction operation"), so no record is produced
(`none`). -/
noncomputable def evaluatePredictions (predictions actual_values : List ℝ) :
    Option Metrics :=
  let min_length := min predictions.length actual_values.length
  let pred := predictions.take min_length
  let actual := actual_values.take min_length
  if min_length = 0 then none
  else
    let errors := (pred.zip actual).map (fun p => p.1 - p.2)
    let abs_errors := errors.map (fun e => |e|)
    let mse := pymean (errors.map (fun e => e ^ 2))
    let mae := pymean abs_errors
    let rmse := Real.sqrt mse
    let correlation := if 1 < min_length then pearson pred actual else 0
    let ss_res := (errors.map (fun e => e ^ 2)).sum
    let ss_tot := (actual.map (fun a => (a - pymean actual) ^ 2)).sum
    let r_squared := if ss_tot ≠ 0 then 1 - ss_res / ss_tot else 0
    let data_range := npMax actual - npMin actual
    let normalized_rmse : EReal :=
      if data_range ≠ 0 then ((rmse / data_range : ℝ) : EReal) else ⊤
    some { mse := mse, mae := mae, rmse := rmse, correlation := correlation,
           r_squared := r_squared, error_std := npStd errors,
           error_var := npVar errors, max_error := npMax abs_errors,
           min_error := npMin abs_errors,
           error_95th_percentile := npPercentile 95 abs_errors,
           error_75th_percentile := npPercentile 75 abs_errors,
           error_median := npPercentile 50 abs_errors,
           normalized_rmse := normalized_rmse, data_range := data_range,
           samples := min_length,
           accuracy_assessment :=
             assessAccuracy correlation r_squared normalized_rmse mae data_range }

/-- Python slicing `series[i:j]` for `0 ≤ i ≤ j ≤ len(series)`, the notation
the spec uses for ground-truth alignment. -/
def pySlice {α : Type} (xs : List α) (i j : Nat) : List α := (xs.take j).drop i

/-! ### Claims about the forecaster -/

theorem predictLoop_no_range_error {α : Type} (inputSize : Nat) (model : List α → α) :
    ∀ (n : Nat) (cur : List α),
      predictLoop inputSize model cur n ≠ .error .startIndexTooLarge := by
  intro n
  induction n with
  | zero => intro cur h; cases h
  | succ n ih =>
    intro cur h
    by_cases h0 : cur.length = inputSize
    · simp only [predictLoop, predictSingle, h0, if_true, eq_self_iff_true] at h
      cases hrec : predictLoop inputSize model (cur.tail ++ [model cur]) n with
      | error e =>
        rw [hrec] at h
        cases h
        exact ih (cur.tail ++ [model cur]) hrec
      | ok rest => rw [hrec] at h; cases h
    · simp only [predictLoop, predictSingle, h0, if_false] at h
      cases h

theorem predictSequence_no_range_error {α : Type} (inputSize : Nat)
    (model : List α → α) (init : List α) (steps : Nat) :
    predictSequence inputSize model init steps ≠ .error .startIndexTooLarge := by
  unfold predictSequence
  by_cases h0 : init.length = inputSize
  · rw [if_pos h0]
    exact predictLoop_no_range_error inputSize model steps init
  · rw [if_neg h0]
    intro h
    cases h

theorem initial_slice_length {α : Type} (data : List α) (startIndex inputSize : Nat)
    (h : startIndex + inputSize ≤ data.length) :
    ((data.take (startIndex + inputSize)).drop startIndex).length = inputSize := by
  simp only [List.length_drop, List.length_take]
  omega

/-- C1 (amended: `input_size ≥ 1`): the autoregressive forecast returns a
predictions sequence of length exactly `steps`, both through
`predict_sequence` and through `predict_from_csv`. -/
theorem C1_forecast_length {α : Type} (inputSize : Nat) (model : List α → α)
    (h1 : 1 ≤ inputSize) :
    (∀ (init : List α) (steps : Nat), init.length = inputSize →
      ∃ ps, predictSequence inputSize model init steps = .ok ps ∧ ps.length = steps) ∧
    (∀ (data : List α) (startIndex steps : Nat),
      startIndex + inputSize < data.length →
      ∃ r, predictFromCsv inputSize model data startIndex steps = .ok r ∧
        r.predictions.length = steps) := by
  constructor
  · intro init steps h0
    exact ⟨genPreds model init steps,
      predictSequence_ok inputSize model init steps h1 h0,
      genPreds_length model steps init⟩
  · intro data startIndex steps hrange
    have hnotle : ¬ data.length ≤ startIndex + inputSize := by omega
    have hinit : ((data.take (startIndex + inputSize)).drop startIndex).length = inputSize :=
      initial_slice_length data startIndex inputSize (le_of_lt hrange)
    have hseq := predictSequence_ok inputSize model
      ((data.take (startIndex + inputSize)).drop startIndex) steps h1 hinit
    have hok : predictFromCsv inputSize model data startIndex steps =
        .ok { initial_sequence := (data.take (startIndex + inputSize)).drop startIndex
              predictions :=
                genPreds model ((data.take (startIndex + inputSize)).drop startIndex) steps
              actual_values :=
                (data.take (min (startIndex + inputSize + steps) data.length)).drop
                  (startIndex + inputSize)
              start_index := startIndex
              prediction_steps :=
                (genPreds model ((data.take (startIndex + inputSize)).drop startIndex)
                  steps).length
              input_size := inputSize } := by
      simp only [predictFromCsv, hnotle, if_false, hseq]
    exact ⟨_, hok, genPreds_length model steps _⟩
/-- C1 counterexample: with `input_size = 0` and `steps = 2` the second pass
fails its length check (the slid window has length 1), so no predictions
sequence is returned at all. -/
theorem C1_counterexample :
    ([] : List ℚ).length = 0 ∧
    predictSequence 0 zeroModel ([] : List ℚ) 2 = .error (.wrongInputLength 0) :=
  ⟨rfl, rfl⟩

/-- C1 witness. -/
theorem C1_forecast_length_witness :
    (∃ ps, predictSequence 2 zeroModel ([1, 2] : List ℚ) 3 = .ok ps ∧ ps.length = 3) ∧
    (∃ r, predictFromCsv 2 zeroModel ([1, 2, 3, 4] : List ℚ) 0 5 = .ok r ∧
      r.predictions.length = 5) :=
  ⟨(C1_forecast_length 2 zeroModel (by decide)).1 [1, 2] 3 (by decide),
   (C1_forecast_length 2 zeroModel (by decide)).2 [1, 2, 3, 4] 0 5 (by decide)⟩

/-- C2: in a completed forecast every window handed to the step predictor has
length exactly `input_size` (the check in `predict_single` runs before every
model call), the `k`-th prediction is the model's output on the `k`-th
window, and the window of step `k+1` is the window of step `k` with its
first (oldest) element dropped and `predictions[k]` appended, in order. -/
theorem C2_windowing {α : Type} (inputSize : Nat) (model : List α → α)
    (init : List α) (steps : Nat) (ps : List α)
    (h : predictSequence inputSize model init steps = .ok ps) :
    (∀ k, k < steps → (windowAt model init k).length = inputSize) ∧
    (∀ k, k < steps → ps.get? k = some (model (windowAt model init k))) ∧
    (∀ k p, k + 1 < steps → ps.get? k = some p →
      windowAt model init (k + 1) = (windowAt model init k).tail ++ [p]) := by
  have h0 : init.length = inputSize := by
    by_contra hne
    rw [predictSequence, if_neg hne] at h
    cases h
  rw [predictSequence, if_pos h0] at h
  obtain ⟨hps, hwin⟩ := predictLoop_ok_elim inputSize model steps init ps h
  refine ⟨hwin, ?_, ?_⟩
  · intro k hk
    rw [hps]
    exact genPreds_get model steps init k hk
  · intro k p hk hp
    rw [hps] at hp
    have := genPreds_get model steps init k (by omega)
    rw [this] at hp
    have hpv : p = model (windowAt model init k) := (Option.some.inj hp).symm
    rw [hpv]
    rfl

/-- C2 witness. -/
theorem C2_windowing_witness :
    (windowAt zeroModel ([1, 2] : List ℚ) 1).length = 2 ∧
    windowAt zeroModel ([1, 2] : List ℚ) 1 = ([1, 2] : List ℚ).tail ++ [0] := by
  have h := C2_windowing 2 zeroModel ([1, 2] : List ℚ) 3
    (genPreds zeroModel [1, 2] 3) rfl
  exact ⟨h.1 1 (by decide), h.2.2 0 0 (by decide) rfl⟩

/-- C3 (amended: the boundary clause additionally needs `input_size ≥ 1`):
`predict_from_csv` fails with the range error exactly when
`start_index + input_size ≥ len(series)`, and for `input_size ≥ 1` the
boundary `start_index + input_size = len(series) - 1` succeeds with exactly
one actual value whenever `steps ≥ 1`. -/
theorem C3_range_error {α : Type} (inputSize : Nat) (model : List α → α)
    (data : List α) (startIndex steps : Nat) :
    (predictFromCsv inputSize model data startIndex steps = .error .startIndexTooLarge ↔
      data.length ≤ startIndex + inputSize) ∧
    (1 ≤ inputSize → startIndex + inputSize + 1 = data.length → 1 ≤ steps →
      ∃ r, predictFromCsv inputSize model data startIndex steps = .ok r ∧
        r.actual_values.length = 1) := by
  constructor
  · constructor
    · intro h
      by_contra hnotle
      rw [predictFromCsv, if_neg hnotle] at h
      cases hseq : predictSequence inputSize model
          ((data.take (startIndex + inputSize)).drop startIndex) steps with
      | error e =>
        rw [hseq] at h
        cases h
        exact predictSequence_no_range_error inputSize model _ steps hseq
      | ok preds => rw [hseq] at h; cases h
    · intro h
      rw [predictFromCsv, if_pos h]
  · intro h1 hlen hsteps
    have hnotle : ¬ data.length ≤ startIndex + inputSize := by omega
    have hinit : ((data.take (startIndex + inputSize)).drop startIndex).length = inputSize :=
      initial_slice_length data startIndex inputSize (by omega)
    have hseq := predictSequence_ok inputSize model
      ((data.take (startIndex + inputSize)).drop startIndex) steps h1 hinit
    have hok : predictFromCsv inputSize model data startIndex steps =
        .ok { initial_sequence := (data.take (startIndex + inputSize)).drop startIndex
              predictions :=
                genPreds model ((data.take (startIndex + inputSize)).drop startIndex) steps
              actual_values :=
                (data.take (min (startIndex + inputSize + steps) data.length)).drop
                  (startIndex + inputSize)
              start_index := startIndex
              prediction_steps :=
                (genPreds model ((data.take (startIndex + inputSize)).drop startIndex)
                  steps).length
              input_size := inputSize } := by
      simp only [predictFromCsv, hnotle, if_false, hseq]
    refine ⟨_, hok, ?_⟩
    have hmin : min (startIndex + inputSize + steps) data.length = data.length := by
      omega
    simp only [hmin, List.length_drop, List.length_take]
    omega
/-- C3 counterexample: at the boundary `start_index + input_size =
len(series) - 1`, with `input_size = 0` and `steps = 2` the call fails (with
the window-length error, not the range error), so the boundary does not
always succeed. -/
theorem C3_counterexample :
    0 + 0 + 1 = ([0] : List ℚ).length ∧
    predictFromCsv 0 zeroModel ([0] : List ℚ) 0 2 = .error (.wrongInputLength 0) :=
  ⟨rfl, rfl⟩

/-- C3 witness. -/
theorem C3_range_error_witness :
    (predictFromCsv 2 zeroModel ([1, 2] : List ℚ) 0 1 = .error .startIndexTooLarge) ∧
    (∃ r, predictFromCsv 2 zeroModel ([1, 2, 3] : List ℚ) 0 4 = .ok r ∧
      r.actual_values.length = 1) :=
  ⟨(C3_range_error 2 zeroModel ([1, 2] : List ℚ) 0 1).1.mpr (by decide),
   (C3_range_error 2 zeroModel ([1, 2, 3] : List ℚ) 0 4).2 (by decide) (by decide) (by decide)⟩

/-- C10: `predict_sequence` leaves the caller's `initial_sequence` object
unchanged (it copies it and only rebinds the copy), and the heap replay
computes exactly the pure `predictSequence` result, so repeated forecasts
with identical arguments produce identical results. -/
theorem C10_initial_unchanged (inputSize : Nat) (model : List ℚ → ℚ)
    (heap : Nat → List ℚ) (fresh initAddr steps : Nat) (hlive : initAddr < fresh) :
    (predictSequenceImp inputSize model heap fresh initAddr steps).1 initAddr =
      heap initAddr ∧
    (predictSequenceImp inputSize model heap fresh initAddr steps).2 =
      predictSequence inputSize model (heap initAddr) steps :=
  predictSequenceImp_spec inputSize model heap fresh initAddr steps hlive

/-- A one-object demo heap for the C10 witness. -/
def demoHeap : Nat → List ℚ := fun a => if a = 0 then [1, 2] else []

/-- C10 witness. -/
theorem C10_initial_unchanged_witness :
    (predictSequenceImp 2 zeroModel demoHeap 1 0 2).1 0 = demoHeap 0 ∧
    (predictSequenceImp 2 zeroModel demoHeap 1 0 2).2 =
      predictSequence 2 zeroModel (demoHeap 0) 2 :=
  C10_initial_unchanged 2 zeroModel demoHeap 1 0 2 (by decide)

/-! ### Claims about the accuracy assessor -/

theorem one_sub_coe (x : ℝ) : (1 : EReal) - ((x : ℝ) : EReal) = ((1 - x : ℝ) : EReal) := by
  rw [← EReal.coe_one, EReal.coe_sub]

theorem one_sub_top : (1 : EReal) - (⊤ : EReal) = ⊥ := EReal.sub_top 1

theorem one_sub_bot : (1 : EReal) - (⊥ : EReal) = ⊤ := by
  rw [← EReal.coe_one]
  exact EReal.coe_sub_bot 1

theorem getMetricScore_coe (x e g a : ℝ) :
    getMetricScore ((x : ℝ) : EReal) ((e : ℝ) : EReal) ((g : ℝ) : EReal)
      ((a : ℝ) : EReal) =
      if e ≤ x then 3 else if g ≤ x then 2 else if a ≤ x then 1 else 0 := by
  simp only [getMetricScore, EReal.coe_le_coe_iff]

theorem getMetricScore_bounds (value excellent good acceptable : EReal) :
    0 ≤ getMetricScore value excellent good acceptable ∧
      getMetricScore value excellent good acceptable ≤ 3 := by
  unfold getMetricScore
  split_ifs <;> omega

theorem getMetricScore_mono (v w e g a : EReal) (h : v ≤ w) :
    getMetricScore v e g a ≤ getMetricScore w e g a := by
  unfold getMetricScore
  by_cases h1 : e ≤ v
  · rw [if_pos h1, if_pos (le_trans h1 h)]
  · rw [if_neg h1]
    by_cases h2 : g ≤ v
    · rw [if_pos (le_trans h2 h)]
      split_ifs <;> omega
    · rw [if_neg h2]
      by_cases h3 : a ≤ v
      · rw [if_pos (le_trans h3 h)]
        split_ifs <;> omega
      · rw [if_neg h3]
        split_ifs <;> omega

/-- C7: the per-metric scoring function is the inclusive 3/2/1/0 threshold
chain, and for the lower-is-better metrics the complement trick
(`1 - value` against `1 - threshold`) is equivalent to inclusive
`value ≤ threshold` scoring against the table thresholds 0.05/0.10/0.20
(normalized RMSE) and 0.02/0.05/0.10 (MAE ratio) — for every extended-real
value, including `+∞`. -/
theorem C7_metric_score :
    (∀ value excellent good acceptable : EReal,
      getMetricScore value excellent good acceptable =
        if excellent ≤ value then 3
        else if good ≤ value then 2
        else if acceptable ≤ value then 1
        else 0) ∧
    (∀ v : EReal,
      getMetricScore (1 - v) (((1 - 0.05 : ℝ)) : EReal) (((1 - 0.10 : ℝ)) : EReal)
          (((1 - 0.20 : ℝ)) : EReal) =
        if v ≤ ((0.05 : ℝ) : EReal) then 3
        else if v ≤ ((0.10 : ℝ) : EReal) then 2
        else if v ≤ ((0.20 : ℝ) : EReal) then 1
        else 0) ∧
    (∀ v : EReal,
      getMetricScore (1 - v) (((1 - 0.02 : ℝ)) : EReal) (((1 - 0.05 : ℝ)) : EReal)
          (((1 - 0.10 : ℝ)) : EReal) =
        if v ≤ ((0.02 : ℝ) : EReal) then 3
        else if v ≤ ((0.05 : ℝ) : EReal) then 2
        else if v ≤ ((0.10 : ℝ) : EReal) then 1
        else 0) := by
  have key : ∀ (v : EReal) (t : ℝ),
      (((1 - t : ℝ) : EReal) ≤ 1 - v ↔ v ≤ ((t : ℝ) : EReal)) := by
    intro v t
    induction v using EReal.rec with
    | h_bot =>
      simp only [one_sub_bot, le_top, bot_le]
    | h_real x =>
      rw [one_sub_coe, EReal.coe_le_coe_iff, EReal.coe_le_coe_iff]
      constructor <;> intro h <;> linarith
    | h_top =>
      rw [one_sub_top]
      constructor
      · intro h
        exact absurd (le_bot_iff.mp h) (EReal.coe_ne_bot _)
      · intro h
        exact absurd (top_le_iff.mp h) (EReal.coe_ne_top _)
  refine ⟨fun v e g a => rfl, fun v => ?_, fun v => ?_⟩
  · unfold getMetricScore
    simp only [key]
  · unfold getMetricScore
    simp only [key]

/-- C7 witness. -/
theorem C7_metric_score_witness :
    getMetricScore ((0.85 : ℝ) : EReal) ((0.95 : ℝ) : EReal) ((0.80 : ℝ) : EReal)
        ((0.60 : ℝ) : EReal) =
      (if (0.95 : ℝ) ≤ 0.85 then 3 else if (0.80 : ℝ) ≤ 0.85 then 2
        else if (0.60 : ℝ) ≤ 0.85 then 1 else 0 : ℤ) ∧
    getMetricScore (1 - (⊤ : EReal)) (((1 - 0.05 : ℝ)) : EReal)
        (((1 - 0.10 : ℝ)) : EReal) (((1 - 0.20 : ℝ)) : EReal) = 0 := by
  constructor
  · rw [C7_metric_score.1 ((0.85 : ℝ) : EReal) _ _ _]
    simp only [EReal.coe_le_coe_iff]
  · rw [C7_metric_score.2.1 (⊤ : EReal)]
    have h1 : ¬ ((⊤ : EReal) ≤ ((0.05 : ℝ) : EReal)) :=
      fun h => absurd (top_le_iff.mp h) (EReal.coe_ne_top _)
    have h2 : ¬ ((⊤ : EReal) ≤ ((0.10 : ℝ) : EReal)) :=
      fun h => absurd (top_le_iff.mp h) (EReal.coe_ne_top _)
    have h3 : ¬ ((⊤ : EReal) ≤ ((0.20 : ℝ) : EReal)) :=
      fun h => absurd (top_le_iff.mp h) (EReal.coe_ne_top _)
    rw [if_neg h1, if_neg h2, if_neg h3]

theorem assess_overall (c r : ℝ) (n : EReal) (mae dr : ℝ) :
    (assessAccuracy c r n mae dr).overall_score =
      min (min (min
        (getMetricScore ((|c| : ℝ) : EReal) ((0.95 : ℝ) : EReal) ((0.80 : ℝ) : EReal)
          ((0.60 : ℝ) : EReal))
        (getMetricScore ((r : ℝ) : EReal) ((0.90 : ℝ) : EReal) ((0.70 : ℝ) : EReal)
          ((0.50 : ℝ) : EReal)))
        (getMetricScore (1 - n) (((1 - 0.05 : ℝ)) : EReal) (((1 - 0.10 : ℝ)) : EReal)
          (((1 - 0.20 : ℝ)) : EReal)))
        (getMetricScore (1 - (if dr ≠ 0 then ((mae / dr : ℝ) : EReal) else ⊤))
          (((1 - 0.02 : ℝ)) : EReal) (((1 - 0.05 : ℝ)) : EReal)
          (((1 - 0.10 : ℝ)) : EReal)) := by
  simp only [assessAccuracy]
  split_ifs <;> rfl

/-- C8: the overall score is the minimum of the four per-metric scores, all
five scores lie in `[0, 3]`, and the verdict (`level`, `acceptable`,
recommendation tier) is determined solely by the overall score:
3 ↦ 優秀/Excellent, 2 ↦ 良好/Good, 1 ↦ 許容可能/Acceptable,
0 ↦ 不十分/Insufficient, with `acceptable` exactly when the overall score is
at least 1. -/
theorem C8_assessment (c r : ℝ) (n : EReal) (mae dr : ℝ) (A : AccuracyAssessment)
    (hA : A = assessAccuracy c r n mae dr) :
    A.overall_score =
      min (min (min A.correlation_score A.r_squared_score) A.normalized_rmse_score)
        A.mae_ratio_score ∧
    (0 ≤ A.overall_score ∧ A.overall_score ≤ 3) ∧
    (0 ≤ A.correlation_score ∧ A.correlation_score ≤ 3) ∧
    (0 ≤ A.r_squared_score ∧ A.r_squared_score ≤ 3) ∧
    (0 ≤ A.normalized_rmse_score ∧ A.normalized_rmse_score ≤ 3) ∧
    (0 ≤ A.mae_ratio_score ∧ A.mae_ratio_score ≤ 3) ∧
    (A.overall_score = 3 → A.level = "優秀" ∧ A.acceptable = true) ∧
    (A.overall_score = 2 → A.level = "良好" ∧ A.acceptable = true) ∧
    (A.overall_score = 1 → A.level = "許容可能" ∧ A.acceptable = true) ∧
    (A.overall_score = 0 → A.level = "不十分" ∧ A.acceptable = false) ∧
    (A.acceptable = true ↔ 1 ≤ A.overall_score) := by
  subst hA
  simp only [assessAccuracy]
  set mr : EReal := if dr ≠ 0 then ((mae / dr : ℝ) : EReal) else ⊤ with hmr
  obtain ⟨hb1, hb2⟩ := getMetricScore_bounds ((|c| : ℝ) : EReal) ((0.95 : ℝ) : EReal)
    ((0.80 : ℝ) : EReal) ((0.60 : ℝ) : EReal)
  obtain ⟨hb3, hb4⟩ := getMetricScore_bounds ((r : ℝ) : EReal) ((0.90 : ℝ) : EReal)
    ((0.70 : ℝ) : EReal) ((0.50 : ℝ) : EReal)
  obtain ⟨hb5, hb6⟩ := getMetricScore_bounds (1 - n) (((1 - 0.05 : ℝ)) : EReal)
    (((1 - 0.10 : ℝ)) : EReal) (((1 - 0.20 : ℝ)) : EReal)
  obtain ⟨hb7, hb8⟩ := getMetricScore_bounds (1 - mr) (((1 - 0.02 : ℝ)) : EReal)
    (((1 - 0.05 : ℝ)) : EReal) (((1 - 0.10 : ℝ)) : EReal)
  split_ifs with h3 h2 h1 <;> dsimp only <;>
    refine ⟨rfl, by omega, ⟨hb1, hb2⟩, ⟨hb3, hb4⟩, ⟨hb5, hb6⟩, ⟨hb7, hb8⟩,
      ?_, ?_, ?_, ?_, ?_⟩ <;>
    first
      | exact fun h => absurd h (by omega)
      | exact fun _ => ⟨rfl, rfl⟩
      | exact ⟨fun _ => by omega, fun _ => rfl⟩
      | exact ⟨fun h => absurd h (by simp), fun h => absurd h h1⟩

/-- C8 witness. -/
theorem C8_assessment_witness :
    (assessAccuracy 1 1 ((0 : ℝ) : EReal) 0 1).acceptable = true ↔
      1 ≤ (assessAccuracy 1 1 ((0 : ℝ) : EReal) 0 1).overall_score :=
  (C8_assessment 1 1 ((0 : ℝ) : EReal) 0 1 _ rfl).2.2.2.2.2.2.2.2.2.2

/-- C9 (amended: the correlations must not decrease in magnitude — here
stated with both nonnegative — because the code scores `abs(correlation)`):
with `mae` and `data_range` fixed, raising `correlation` and `r_squared` and
lowering `normalized_rmse` never lowers the overall score. -/
theorem C9_monotone (c1 c2 r1 r2 : ℝ) (n1 n2 : EReal) (mae dr : ℝ)
    (hc0 : 0 ≤ c1) (hc : c1 ≤ c2) (hr : r1 ≤ r2) (hn : n2 ≤ n1) :
    (assessAccuracy c1 r1 n1 mae dr).overall_score ≤
      (assessAccuracy c2 r2 n2 mae dr).overall_score := by
  rw [assess_overall, assess_overall]
  have habs : |c1| ≤ |c2| := by
    rw [abs_of_nonneg hc0]
    exact le_trans hc (le_abs_self c2)
  have h1 := getMetricScore_mono ((|c1| : ℝ) : EReal) ((|c2| : ℝ) : EReal)
    ((0.95 : ℝ) : EReal) ((0.80 : ℝ) : EReal) ((0.60 : ℝ) : EReal)
    (EReal.coe_le_coe_iff.mpr habs)
  have h2 := getMetricScore_mono ((r1 : ℝ) : EReal) ((r2 : ℝ) : EReal)
    ((0.90 : ℝ) : EReal) ((0.70 : ℝ) : EReal) ((0.50 : ℝ) : EReal)
    (EReal.coe_le_coe_iff.mpr hr)
  have h3 := getMetricScore_mono (1 - n1) (1 - n2) (((1 - 0.05 : ℝ)) : EReal)
    (((1 - 0.10 : ℝ)) : EReal) (((1 - 0.20 : ℝ)) : EReal)
    (EReal.sub_le_sub (le_refl (1 : EReal)) hn)
  exact min_le_min (min_le_min (min_le_min h1 h2) h3) (le_refl _)

/-- C9 counterexample: raising the correlation from −0.95 to 0 (all other
inputs fixed) drops `abs(correlation)` below every threshold, so the overall
score falls from 3 to 0 — the claim fails for sign-changing correlations. -/
theorem C9_counterexample :
    ((-0.95 : ℝ) ≤ 0 ∧ (0.95 : ℝ) ≤ 0.95 ∧ ((0 : ℝ) : EReal) ≤ ((0 : ℝ) : EReal)) ∧
    (assessAccuracy 0 0.95 ((0 : ℝ) : EReal) 0 1).overall_score <
      (assessAccuracy (-0.95) 0.95 ((0 : ℝ) : EReal) 0 1).overall_score := by
  refine ⟨⟨by norm_num, le_refl _, le_refl _⟩, ?_⟩
  rw [assess_overall, assess_overall]
  have hmr : (if (1 : ℝ) ≠ 0 then ((0 / 1 : ℝ) : EReal) else ⊤) = ((0 / 1 : ℝ) : EReal) :=
    if_pos one_ne_zero
  have ha : |(-0.95 : ℝ)| = (0.95 : ℝ) := by
    rw [abs_neg]
    rw [abs_of_nonneg]
    norm_num
  have e1 : getMetricScore ((|(-0.95 : ℝ)| : ℝ) : EReal) ((0.95 : ℝ) : EReal)
      ((0.80 : ℝ) : EReal) ((0.60 : ℝ) : EReal) = 3 := by
    rw [ha, getMetricScore_coe]
    norm_num
  have e2 : getMetricScore ((|(0 : ℝ)| : ℝ) : EReal) ((0.95 : ℝ) : EReal)
      ((0.80 : ℝ) : EReal) ((0.60 : ℝ) : EReal) = 0 := by
    rw [getMetricScore_coe]
    norm_num
  have e3 : getMetricScore (((0.95 : ℝ)) : EReal) ((0.90 : ℝ) : EReal)
      ((0.70 : ℝ) : EReal) ((0.50 : ℝ) : EReal) = 3 := by
    rw [getMetricScore_coe]
    norm_num
  have e4 : getMetricScore (1 - ((0 : ℝ) : EReal)) (((1 - 0.05 : ℝ)) : EReal)
      (((1 - 0.10 : ℝ)) : EReal) (((1 - 0.20 : ℝ)) : EReal) = 3 := by
    rw [one_sub_coe, getMetricScore_coe]
    norm_num
  have e5 : getMetricScore (1 - (if (1 : ℝ) ≠ 0 then ((0 / 1 : ℝ) : EReal) else ⊤))
      (((1 - 0.02 : ℝ)) : EReal) (((1 - 0.05 : ℝ)) : EReal)
      (((1 - 0.10 : ℝ)) : EReal) = 3 := by
    rw [hmr, one_sub_coe, getMetricScore_coe]
    norm_num
  rw [e1, e2, e3, e4, e5]
  decide

/-! ### Claims about the metrics calculator -/

theorem sum_zero_of_nonneg (l : List ℝ) (h0 : ∀ x ∈ l, 0 ≤ x) (hs : l.sum = 0) :
    ∀ x ∈ l, x = 0 := by
  induction l with
  | nil => intro x hx; cases hx
  | cons b t ih =>
    have hb : 0 ≤ b := h0 b (List.mem_cons_self b t)
    have ht : 0 ≤ t.sum :=
      List.sum_nonneg (fun x hx => h0 x (List.mem_cons_of_mem b hx))
    rw [List.sum_cons] at hs
    intro x hx
    rcases List.mem_cons.mp hx with hxb | hxt
    · rw [hxb]; linarith
    · exact ih (fun y hy => h0 y (List.mem_cons_of_mem b hy)) (by linarith) x hxt

theorem sum_const_list (xs : List ℝ) (c : ℝ) (h : ∀ x ∈ xs, x = c) :
    xs.sum = xs.length * c := by
  induction xs with
  | nil => simp
  | cons b t ih =>
    rw [List.sum_cons, h b (List.mem_cons_self b t),
      ih (fun x hx => h x (List.mem_cons_of_mem b hx)), List.length_cons]
    push_cast
    ring

theorem pymean_const (xs : List ℝ) (c : ℝ) (hxs : xs ≠ []) (h : ∀ x ∈ xs, x = c) :
    pymean xs = c := by
  have hlen : (xs.length : ℝ) ≠ 0 := by
    have := List.length_pos.mpr hxs
    exact_mod_cast Nat.pos_iff_ne_zero.mp this
  rw [pymean, sum_const_list xs c h, mul_comm, mul_div_assoc, div_self hlen, mul_one]

theorem foldl_max_bounds (t : List ℝ) :
    ∀ (acc : ℝ), acc ≤ t.foldl max acc ∧ ∀ x ∈ t, x ≤ t.foldl max acc := by
  induction t with
  | nil =>
    intro acc
    exact ⟨le_refl _, fun x hx => absurd hx (List.not_mem_nil x)⟩
  | cons b t ih =>
    intro acc
    obtain ⟨h1, h2⟩ := ih (max acc b)
    refine ⟨le_trans (le_max_left acc b) h1, ?_⟩
    intro x hx
    rcases List.mem_cons.mp hx with hxb | hxt
    · rw [hxb]
      exact le_trans (le_max_right acc b) h1
    · exact h2 x hxt

theorem foldl_min_bounds (t : List ℝ) :
    ∀ (acc : ℝ), t.foldl min acc ≤ acc ∧ ∀ x ∈ t, t.foldl min acc ≤ x := by
  induction t with
  | nil =>
    intro acc
    exact ⟨le_refl _, fun x hx => absurd hx (List.not_mem_nil x)⟩
  | cons b t ih =>
    intro acc
    obtain ⟨h1, h2⟩ := ih (min acc b)
    refine ⟨le_trans h1 (min_le_left acc b), ?_⟩
    intro x hx
    rcases List.mem_cons.mp hx with hxb | hxt
    · rw [hxb]
      exact le_trans h1 (min_le_right acc b)
    · exact h2 x hxt

theorem npMax_ge_mem (xs : List ℝ) : ∀ x ∈ xs, x ≤ npMax xs := by
  rcases xs with _ | ⟨b, t⟩
  · intro x hx; cases hx
  · intro x hx
    rcases List.mem_cons.mp hx with hxb | hxt
    · rw [hxb]
      exact (foldl_max_bounds t b).1
    · exact (foldl_max_bounds t b).2 x hxt

theorem npMin_le_mem (xs : List ℝ) : ∀ x ∈ xs, npMin xs ≤ x := by
  rcases xs with _ | ⟨b, t⟩
  · intro x hx; cases hx
  · intro x hx
    rcases List.mem_cons.mp hx with hxb | hxt
    · rw [hxb]
      exact (foldl_min_bounds t b).1
    · exact (foldl_min_bounds t b).2 x hxt

theorem const_of_max_eq_min (xs : List ℝ) (h : npMax xs = npMin xs) :
    ∀ x ∈ xs, x = npMax xs := by
  intro x hx
  have h1 : x ≤ npMax xs := npMax_ge_mem xs x hx
  have h2 : npMin xs ≤ x := npMin_le_mem xs x hx
  rw [← h] at h2
  linarith

theorem foldl_max_const (t : List ℝ) (c : ℝ) (h : ∀ x ∈ t, x = c) :
    t.foldl max c = c := by
  induction t with
  | nil => rfl
  | cons b u ih =>
    rw [List.foldl_cons, h b (List.mem_cons_self b u), max_self]
    exact ih (fun x hx => h x (List.mem_cons_of_mem b hx))

theorem foldl_min_const (t : List ℝ) (c : ℝ) (h : ∀ x ∈ t, x = c) :
    t.foldl min c = c := by
  induction t with
  | nil => rfl
  | cons b u ih =>
    rw [List.foldl_cons, h b (List.mem_cons_self b u), min_self]
    exact ih (fun x hx => h x (List.mem_cons_of_mem b hx))

theorem npMax_eq_npMin_of_const (xs : List ℝ) (c : ℝ) (h : ∀ x ∈ xs, x = c) :
    npMax xs = npMin xs := by
  rcases xs with _ | ⟨b, t⟩
  · rfl
  · have hb : b = c := h b (List.mem_cons_self b t)
    have ht : ∀ x ∈ t, x = c := fun x hx => h x (List.mem_cons_of_mem b hx)
    show t.foldl max b = t.foldl min b
    rw [hb, foldl_max_const t c ht, foldl_min_const t c ht]

theorem sq_sum_pos_of_spread (xs : List ℝ) (hne : npMax xs ≠ npMin xs) :
    0 < (xs.map (fun x => (x - pymean xs) ^ 2)).sum := by
  by_contra hle
  push_neg at hle
  have hnonneg : ∀ y ∈ xs.map (fun x => (x - pymean xs) ^ 2), 0 ≤ y := by
    intro y hy
    obtain ⟨x, _, hxy⟩ := List.mem_map.mp hy
    rw [← hxy]
    exact sq_nonneg _
  have hsum0 : (xs.map (fun x => (x - pymean xs) ^ 2)).sum = 0 :=
    le_antisymm hle (List.sum_nonneg hnonneg)
  have hall : ∀ x ∈ xs, x = pymean xs := by
    intro x hx
    have hx0 : (x - pymean xs) ^ 2 = 0 :=
      sum_zero_of_nonneg _ hnonneg hsum0 ((x - pymean xs) ^ 2)
        (List.mem_map.mpr ⟨x, hx, rfl⟩)
    have := (pow_eq_zero_iff two_ne_zero).mp hx0
    linarith
  exact hne (npMax_eq_npMin_of_const xs (pymean xs) hall)

theorem length_ge_two_of_spread (xs : List ℝ) (hne : npMax xs ≠ npMin xs) :
    2 ≤ xs.length := by
  rcases xs with _ | ⟨b, t⟩
  · exact absurd rfl hne
  · rcases t with _ | ⟨c, u⟩
    · exact absurd rfl hne
    · simp only [List.length_cons]
      omega

theorem zip_self_sub_zero (xs : List ℝ) :
    (xs.zip xs).map (fun q => q.1 - q.2) = List.replicate xs.length (0 : ℝ) := by
  induction xs with
  | nil => rfl
  | cons b t ih =>
    simp only [List.zip_cons_cons, List.map_cons, sub_self, List.length_cons,
      List.replicate_succ, ih]

theorem zip_self_mul_sq (xs : List ℝ) (c : ℝ) :
    ((xs.zip xs).map (fun q => (q.1 - c) * (q.2 - c))).sum =
      (xs.map (fun x => (x - c) ^ 2)).sum := by
  induction xs with
  | nil => rfl
  | cons b t ih =>
    simp only [List.zip_cons_cons, List.map_cons, List.sum_cons, ih, pow_two]

theorem sq_sum_replicate (n : Nat) :
    ((List.replicate n (0 : ℝ)).map (fun e => e ^ 2)).sum = 0 := by
  simp [List.map_replicate, List.sum_replicate]

theorem mean_sq_replicate (n : Nat) :
    pymean ((List.replicate n (0 : ℝ)).map (fun e => e ^ 2)) = 0 := by
  rw [pymean, sq_sum_replicate, zero_div]

theorem mean_abs_replicate (n : Nat) :
    pymean ((List.replicate n (0 : ℝ)).map (fun e => |e|)) = 0 := by
  have h : ((List.replicate n (0 : ℝ)).map (fun e => |e|)).sum = 0 := by
    simp [List.map_replicate, List.sum_replicate]
  rw [pymean, h, zero_div]

theorem pearson_self (xs : List ℝ) (hne : npMax xs ≠ npMin xs) :
    pearson xs xs = 1 := by
  have hpos := sq_sum_pos_of_spread xs hne
  unfold pearson
  rw [zip_self_mul_sq, Real.sqrt_mul_self (le_of_lt hpos)]
  exact div_self (ne_of_gt hpos)

theorem evaluate_truncates (p a : List ℝ) :
    evaluatePredictions p a =
      evaluatePredictions (p.take (min p.length a.length))
        (a.take (min p.length a.length)) := by
  have hlp : (p.take (min p.length a.length)).length = min p.length a.length := by
    rw [List.length_take]
    omega
  have hla : (a.take (min p.length a.length)).length = min p.length a.length := by
    rw [List.length_take]
    omega
  simp only [evaluatePredictions, hlp, hla, Nat.min_self, List.take_take]

theorem evaluate_some (p a : List ℝ) (hn : 1 ≤ min p.length a.length) :
    ∃ m, evaluatePredictions p a = some m := by
  simp only [evaluatePredictions]
  rw [if_neg (by omega : ¬ (min p.length a.length = 0))]
  exact ⟨_, rfl⟩

theorem eval_samples (p a : List ℝ) (m : Metrics)
    (hm : evaluatePredictions p a = some m) : m.samples = min p.length a.length := by
  by_cases hn : min p.length a.length = 0
  · rw [evaluate_truncates] at hm
    simp only [evaluatePredictions] at hm
    rw [if_pos] at hm
    · cases hm
    · simp only [List.length_take]
      omega
  · simp only [evaluatePredictions] at hm
    rw [if_neg hn] at hm
    injection hm with hm2
    subst hm2
    rfl

/-- C4: `actual_values` is the slice
`series[start_index+input_size : min(start_index+input_size+steps, len)]`,
and evaluation truncates both inputs to the common length `n` before
computing anything — the whole `Metrics` record, including `samples`, is a
function of the two common prefixes alone. -/
theorem C4_alignment_truncation :
    (∀ {α : Type} (inputSize : Nat) (model : List α → α) (data : List α)
      (startIndex steps : Nat) (r : ForecastResult α),
      predictFromCsv inputSize model data startIndex steps = .ok r →
      r.actual_values =
        pySlice data (startIndex + inputSize)
          (min (startIndex + inputSize + steps) data.length)) ∧
    (∀ p a : List ℝ,
      evaluatePredictions p a =
        evaluatePredictions (p.take (min p.length a.length))
          (a.take (min p.length a.length)) ∧
      ∀ m, evaluatePredictions p a = some m → m.samples = min p.length a.length) := by
  constructor
  · intro α inputSize model data startIndex steps r h
    rw [predictFromCsv] at h
    by_cases hle : data.length ≤ startIndex + inputSize
    · rw [if_pos hle] at h
      cases h
    · rw [if_neg hle] at h
      cases hseq : predictSequence inputSize model
          ((data.take (startIndex + inputSize)).drop startIndex) steps with
      | error e => rw [hseq] at h; cases h
      | ok preds =>
        rw [hseq] at h
        injection h with h2
        rw [← h2]
        rfl
  · intro p a
    exact ⟨evaluate_truncates p a, fun m hm => eval_samples p a m hm⟩

/-- C4 witness. -/
theorem C4_alignment_truncation_witness :
    (∃ r, predictFromCsv 1 zeroModel ([1, 2, 3] : List ℚ) 0 5 = .ok r ∧
      r.actual_values = pySlice ([1, 2, 3] : List ℚ) 1 (min 6 3)) ∧
    (∃ m, evaluatePredictions [(0 : ℝ), 1] [(0 : ℝ)] = some m ∧ m.samples = 1) := by
  constructor
  · exact ⟨_, rfl, C4_alignment_truncation.1 1 zeroModel [1, 2, 3] 0 5 _ rfl⟩
  · exact ⟨_, rfl, (C4_alignment_truncation.2 [(0 : ℝ), 1] [(0 : ℝ)]).2 _ rfl⟩

theorem assess_mae_ratio (c r : ℝ) (n : EReal) (mae dr : ℝ) :
    maeRatioOf (assessAccuracy c r n mae dr) =
      if dr ≠ 0 then ((mae / dr : ℝ) : EReal) else ⊤ := by
  simp only [maeRatioOf, assessAccuracy]
  split_ifs <;> rfl

theorem eval_fields_const (p a : List ℝ) (m : Metrics)
    (hm : evaluatePredictions p a = some m)
    (hconst : npMax (a.take (min p.length a.length)) =
      npMin (a.take (min p.length a.length))) :
    m.normalized_rmse = (⊤ : EReal) ∧
      maeRatioOf m.accuracy_assessment = (⊤ : EReal) ∧ m.r_squared = 0 := by
  by_cases hn : min p.length a.length = 0
  · simp only [evaluatePredictions] at hm
    rw [if_pos hn] at hm
    cases hm
  · simp only [evaluatePredictions] at hm
    rw [if_neg hn] at hm
    injection hm with hm2
    subst hm2
    have hdr0 : npMax (a.take (min p.length a.length)) -
        npMin (a.take (min p.length a.length)) = 0 := sub_eq_zero.mpr hconst
    have hnenil : a.take (min p.length a.length) ≠ [] := by
      have hlen : (a.take (min p.length a.length)).length = min p.length a.length := by
        rw [List.length_take]
        omega
      intro hnil
      rw [hnil] at hlen
      simp only [List.length_nil] at hlen
      omega
    have hconstall := const_of_max_eq_min _ hconst
    have hmean : pymean (a.take (min p.length a.length)) =
        npMax (a.take (min p.length a.length)) :=
      pymean_const _ _ hnenil hconstall
    have hss : ((a.take (min p.length a.length)).map
        (fun x => (x - pymean (a.take (min p.length a.length))) ^ 2)).sum = 0 := by
      refine List.sum_eq_zero ?_
      intro y hy
      obtain ⟨x, hx, hxy⟩ := List.mem_map.mp hy
      rw [← hxy, hconstall x hx, hmean, sub_self]
      exact zero_pow two_ne_zero
    refine ⟨?_, ?_, ?_⟩
    · dsimp only
      rw [if_neg (not_not.mpr hdr0)]
    · dsimp only
      rw [assess_mae_ratio]
      rw [if_neg (not_not.mpr hdr0)]
    · dsimp only
      rw [if_neg (not_not.mpr hss)]

theorem eval_corr_single (p a : List ℝ) (m : Metrics)
    (hm : evaluatePredictions p a = some m) (h1 : min p.length a.length = 1) :
    m.correlation = 0 := by
  simp only [evaluatePredictions] at hm
  rw [if_neg (by omega : ¬ (min p.length a.length = 0))] at hm
  injection hm with hm2
  subst hm2
  dsimp only
  rw [if_neg (by omega : ¬ (1 < min p.length a.length))]

/-- C6 (amended: the truncated pair must be nonempty, `n ≥ 1`; on an empty
pair numpy's reductions raise, so no record is produced): degenerate-but-
valid inputs yield sentinel values, not exceptions — constant truncated
actual values give `normalized_rmse = +∞`, `mae_ratio = +∞` and
`r_squared = 0`, and a single overlapping sample gives `correlation = 0`,
with a full `Metrics` record still produced. -/
theorem C6_degenerate (p a : List ℝ) (hn : 1 ≤ min p.length a.length) :
    ∃ m, evaluatePredictions p a = some m ∧
      (npMax (a.take (min p.length a.length)) =
          npMin (a.take (min p.length a.length)) →
        m.normalized_rmse = (⊤ : EReal) ∧
        maeRatioOf m.accuracy_assessment = (⊤ : EReal) ∧ m.r_squared = 0) ∧
      (min p.length a.length = 1 → m.correlation = 0) := by
  obtain ⟨m, hm⟩ := evaluate_some p a hn
  exact ⟨m, hm, fun hconst => eval_fields_const p a m hm hconst,
    fun h1 => eval_corr_single p a m hm h1⟩

/-- C6 counterexample: with one prediction and no actual values the
truncated pair is empty (`n = 0 ≤ 1`), and `evaluate_predictions` produces
no record at all (numpy's `np.max` raises on a zero-size array), refuting
"a Metrics record is still produced". -/
theorem C6_counterexample :
    evaluatePredictions [(0 : ℝ)] ([] : List ℝ) = none := rfl

/-- C6 witness. -/
theorem C6_degenerate_witness :
    ∃ m, evaluatePredictions [(5 : ℝ)] [(5 : ℝ)] = some m ∧
      m.normalized_rmse = (⊤ : EReal) ∧
      maeRatioOf m.accuracy_assessment = (⊤ : EReal) ∧
      m.r_squared = 0 ∧ m.correlation = 0 := by
  obtain ⟨m, hm, h1, h2⟩ := C6_degenerate [(5 : ℝ)] [(5 : ℝ)] (by decide)
  obtain ⟨ha, hb, hc⟩ := h1 rfl
  exact ⟨m, hm, ha, hb, hc, h2 rfl⟩

/-- C5 (amended: the (equal) actual values must not all be equal —
`data_range ≠ 0` — since constant ground truth hits the degenerate sentinel
branches of §4.2 instead): evaluating a forecast against itself yields
`mse = mae = rmse = 0`, `correlation = 1`, `r_squared = 1` and
`normalized_rmse = 0`. -/
theorem C5_roundtrip (xs : List ℝ) (hne : npMax xs ≠ npMin xs) :
    ∃ m, evaluatePredictions xs xs = some m ∧
      m.mse = 0 ∧ m.mae = 0 ∧ m.rmse = 0 ∧ m.correlation = 1 ∧
      m.r_squared = 1 ∧ m.normalized_rmse = ((0 : ℝ) : EReal) := by
  have h2 := length_ge_two_of_spread xs hne
  have hss := sq_sum_pos_of_spread xs hne
  simp only [evaluatePredictions, Nat.min_self, List.take_length]
  rw [if_neg (by omega : ¬ (xs.length = 0))]
  refine ⟨_, rfl, ?_, ?_, ?_, ?_, ?_, ?_⟩
  · dsimp only
    rw [zip_self_sub_zero]
    exact mean_sq_replicate xs.length
  · dsimp only
    rw [zip_self_sub_zero]
    exact mean_abs_replicate xs.length
  · dsimp only
    rw [zip_self_sub_zero, mean_sq_replicate, Real.sqrt_zero]
  · dsimp only
    rw [if_pos (by omega : 1 < xs.length)]
    exact pearson_self xs hne
  · dsimp only
    rw [if_pos (ne_of_gt hss), zip_self_sub_zero, sq_sum_replicate, zero_div, sub_zero]
  · dsimp only
    rw [if_pos (sub_ne_zero_of_ne hne), zip_self_sub_zero, mean_sq_replicate,
      Real.sqrt_zero, zero_div]

/-- C5 counterexample: a perfect forecast of a constant series
(`predictions = actual_values = [5, 5]`, so `n = 2 ≥ 1`) yields
`r_squared = 0` (not 1) and `normalized_rmse = +∞` (not 0), because the
degenerate guards fire. -/
theorem C5_counterexample :
    ∃ m, evaluatePredictions [(5 : ℝ), 5] [(5 : ℝ), 5] = some m ∧
      m.r_squared = 0 ∧ m.normalized_rmse = (⊤ : EReal) := by
  have hn : 1 ≤ min ([(5 : ℝ), 5].length) ([(5 : ℝ), 5].length) := by decide
  obtain ⟨m, hm⟩ := evaluate_some [(5 : ℝ), 5] [(5 : ℝ), 5] hn
  have hconst : npMax ([(5 : ℝ), 5].take
        (min ([(5 : ℝ), 5].length) ([(5 : ℝ), 5].length))) =
      npMin ([(5 : ℝ), 5].take
        (min ([(5 : ℝ), 5].length) ([(5 : ℝ), 5].length))) := by
    show (max (5 : ℝ) 5) = (min (5 : ℝ) 5)
    rw [max_self, min_self]
  obtain ⟨h1, _, h3⟩ := eval_fields_const [(5 : ℝ), 5] [(5 : ℝ), 5] m hm hconst
  exact ⟨m, hm, h3, h1⟩

/-- C5 witness. -/
theorem C5_roundtrip_witness :
    ∃ m, evaluatePredictions [(1 : ℝ), 2] [(1 : ℝ), 2] = some m ∧
      m.mse = 0 ∧ m.correlation = 1 ∧ m.r_squared = 1 := by
  have hne : npMax [(1 : ℝ), 2] ≠ npMin [(1 : ℝ), 2] := by
    show (max (1 : ℝ) 2) ≠ (min (1 : ℝ) 2)
    rw [max_eq_right (by norm_num : (1 : ℝ) ≤ 2),
      min_eq_left (by norm_num : (1 : ℝ) ≤ 2)]
    norm_num
  obtain ⟨m, hm, ha, _, _, hd, he, _⟩ := C5_roundtrip [(1 : ℝ), 2] hne
  exact ⟨m, hm, ha, hd, he⟩

/-- C9 witness. -/
theorem C9_monotone_witness :
    (assessAccuracy 0.7 0.5 ((0.1 : ℝ) : EReal) 0 1).overall_score ≤
      (assessAccuracy 0.9 0.6 ((0.05 : ℝ) : EReal) 0 1).overall_score :=
  C9_monotone 0.7 0.9 0.5 0.6 ((0.1 : ℝ) : EReal) ((0.05 : ℝ) : EReal) 0 1
    (by norm_num) (by norm_num) (by norm_num)
    (EReal.coe_le_coe_iff.mpr (by norm_num))
